import Mathlib

/-!
Shallow embedding of `src/assets/data/sources/split_meetups_by_pubdate_year.py`.

The script partitions a list of meetup records into those whose RSS feed
contains a pubDate in a target year and those that do not, recording
per-record errors.  Network fetch (`http_get_bytes`), XML parsing
(`xml.etree.ElementTree.fromstring`) and RFC-822 date parsing
(`email.utils.parsedate_to_datetime`) are external effects / library
functions; they are modelled as oracle parameters (`Env`), while all the
logic of the script itself (`rss_has_pubdate_year`, the classification
loop in `main`, the sorting of the output buckets) is translated directly.
-/

namespace SplitMeetups

/-- Year-carrying result of a successful `parsedate_to_datetime` call; only
the `.year` attribute is consulted by the script. -/
structure DateTime where
  year : Int
deriving DecidableEq, Repr

/-- An XML element as produced by `ElementTree.fromstring`: a tag, optional
text content, and the list of direct children. -/
inductive XTree where
  | elem (tag : String) (text : Option String) (children : List XTree)

/-- Tag of an element. -/
def XTree.tag : XTree → String
  | .elem t _ _ => t

/-- Text content of an element (`Element.text`, `None` when absent). -/
def XTree.text : XTree → Option String
  | .elem _ t _ => t

/-- Direct children of an element. -/
def XTree.children : XTree → List XTree
  | .elem _ _ c => c

/-- Model of `Element.find(tag)`: first direct child with the given tag. -/
def find (x : XTree) (t : String) : Option XTree :=
  x.children.find? (fun c => c.tag == t)

/-- Model of `Element.findall(tag)`: all direct children with the given tag. -/
def findall (x : XTree) (t : String) : List XTree :=
  x.children.filter (fun c => c.tag == t)

/-- Model of `Element.findtext(tag)`: text of the first matching child
(empty string when the element has no text), `None` when no child matches. -/
def findtext (x : XTree) (t : String) : Option String :=
  (find x t).map (fun c => c.text.getD "")

/-- A meetup record: the three fields the script consults (each optional,
as `dict.get` returns `None` for a missing key) plus the remaining fields,
carried opaquely.  Records are pure values: the script never mutates them. -/
structure Record where
  meetupID : Option String
  meetupName : Option String
  meetupUrlRss : Option String
  rest : List (String × String)
deriving DecidableEq, Repr

/-- An entry of the error list: `{"meetupID": ..., "meetupUrlRss"?: ..., "error": ...}`. -/
structure ErrorEntry where
  meetupID : String
  meetupUrlRss : Option String
  error : String
deriving DecidableEq, Repr

/-- Python truthiness of an optional string: `None` and `""` are falsy.
`pyTruthy o = some s` exactly when the Python value is truthy with value `s`. -/
def pyTruthy : Option String → Option String
  | none => none
  | some s => if s = "" then none else some s

/-- Model of the Python expression `x or ""` applied to an optional string. -/
def pyOrEmpty (o : Option String) : String :=
  match pyTruthy o with
  | none => ""
  | some s => s

/-- The identifier resolution `m.get("meetupID") or m.get("meetupName") or f"row-{idx}"`. -/
def resolveId (m : Record) (idx : Nat) : String :=
  match pyTruthy m.meetupID with
  | some s => s
  | none =>
    match pyTruthy m.meetupName with
    | some s => s
    | none => "row-" ++ toString idx

/-- Result of `http_get_bytes`: either the response body, or one of the
exception classes caught in `main` (`HTTPError`, `URLError`, or any other
exception). -/
inductive FetchResult where
  | ok (body : List Nat)
  | httpError (code : Nat) (reason : String)
  | urlError (reason : String)
  | exc (msg : String)

/-- The external world: the network, the XML parser and the date parser.
`fromstring` fails with the message of an `ET.ParseError`; `parsedate`
returns `none` when `parsedate_to_datetime` raises. -/
structure Env where
  fetch : String → FetchResult
  fromstring : List Nat → Except String XTree
  parsedate : String → Option DateTime

/-- Body of the `for item in channel.findall("item")` loop of
`rss_has_pubdate_year`, as a fold step over the accumulator
`(has_match, pubdates_seen, pubdates_parsed)`. -/
def pubDateStep (pd : String → Option DateTime) (target_year : Int)
    (acc : Bool × Nat × Nat) (item : XTree) : Bool × Nat × Nat :=
  match findtext item "pubDate" with
  | none => acc
  | some pub =>
    if pub = "" then acc
    else
      match pd pub with
      | none => (acc.1, acc.2.1 + 1, acc.2.2)
      | some dt => (acc.1 || decide (dt.year = target_year), acc.2.1 + 1, acc.2.2 + 1)

/-- Translation of `rss_has_pubdate_year(xml_bytes, target_year)`: parse the
bytes, locate `channel`, fold over its `item` children.  The `Except` layer
carries the `ET.ParseError` that `ET.fromstring` may raise. -/
def rss_has_pubdate_year (fromstring : List Nat → Except String XTree)
    (pd : String → Option DateTime) (xml_bytes : List Nat) (target_year : Int) :
    Except String (Bool × Nat × Nat) :=
  match fromstring xml_bytes with
  | .error e => .error e
  | .ok root =>
    match find root "channel" with
    | none => .ok (false, 0, 0)
    | some channel =>
      .ok ((findall channel "item").foldl (pubDateStep pd target_year) (false, 0, 0))

/-- Constant `SLEEP_MIN_SECS` of the script. -/
def SLEEP_MIN_SECS : Nat := 10

/-- Constant `SLEEP_MAX_SECS` of the script. -/
def SLEEP_MAX_SECS : Nat := 60

/-- Duration of the k-th `sleep_random` call, with the pseudo-random stream
`rng` standing for successive `random.randint` draws mapped into the
inclusive range `[SLEEP_MIN_SECS, SLEEP_MAX_SECS]`. -/
def sleepDuration (rng : Nat → Nat) (k : Nat) : Nat :=
  SLEEP_MIN_SECS + rng k % (SLEEP_MAX_SECS - SLEEP_MIN_SECS + 1)

/-- The mutable state of `main`'s loop: the three accumulator lists, the
four counters, and the trace of sleeps performed. -/
structure LoopState where
  with_events : List Record
  without_events : List Record
  errors : List ErrorEntry
  matched_count : Nat
  no_match_count : Nat
  error_count : Nat
  processed : Nat
  sleeps : List Nat
deriving DecidableEq, Repr

/-- Initial loop state of `main`. -/
def initState : LoopState :=
  { with_events := [], without_events := [], errors := []
    matched_count := 0, no_match_count := 0, error_count := 0
    processed := 0, sleeps := [] }

/-- State update shared by the four `except` branches of the loop body:
record an error entry carrying the url, route the record to
`without_events`. -/
def recordError (st : LoopState) (meetup_id rss_url msg : String) (m : Record) :
    LoopState :=
  { st with
    processed := st.processed + 1
    error_count := st.error_count + 1
    errors := st.errors ++ [{ meetupID := meetup_id, meetupUrlRss := some rss_url, error := msg }]
    without_events := st.without_events ++ [m] }

/-- One iteration of `main`'s `for idx, m in enumerate(meetups, start=1)`
loop.  The missing-URL branch ends in `continue`, so it reaches neither the
fetch nor `sleep_random`; every other branch falls through to
`sleep_random(meetup_id)` at the bottom of the loop body. -/
def processRecord (env : Env) (rng : Nat → Nat) (target_year : Int)
    (st : LoopState) (idx : Nat) (m : Record) : LoopState :=
  let meetup_id := resolveId m idx
  match pyTruthy m.meetupUrlRss with
  | none =>
    { st with
      processed := st.processed + 1
      error_count := st.error_count + 1
      errors := st.errors ++ [{ meetupID := meetup_id, meetupUrlRss := none, error := "missing meetupUrlRss" }]
      without_events := st.without_events ++ [m] }
  | some rss_url =>
    let st' :=
      match env.fetch rss_url with
      | .ok xml_bytes =>
        match rss_has_pubdate_year env.fromstring env.parsedate xml_bytes target_year with
        | .ok r =>
          if r.1 then
            { st with
              processed := st.processed + 1
              matched_count := st.matched_count + 1
              with_events := st.with_events ++ [m] }
          else
            { st with
              processed := st.processed + 1
              no_match_count := st.no_match_count + 1
              without_events := st.without_events ++ [m] }
        | .error e => recordError st meetup_id rss_url ("XML ParseError: " ++ e) m
      | .httpError code reason =>
        recordError st meetup_id rss_url ("HTTPError " ++ toString code ++ ": " ++ reason) m
      | .urlError reason => recordError st meetup_id rss_url ("URLError: " ++ reason) m
      | .exc msg => recordError st meetup_id rss_url msg m
    { st' with sleeps := st'.sleeps ++ [sleepDuration rng st'.sleeps.length] }

/-- The loop of `main` from a given state and 1-based index. -/
def runLoopFrom (env : Env) (rng : Nat → Nat) (target_year : Int) :
    LoopState → Nat → List Record → LoopState
  | st, _, [] => st
  | st, idx, m :: rest =>
    runLoopFrom env rng target_year (processRecord env rng target_year st idx m) (idx + 1) rest

/-- The whole loop of `main`, from the empty accumulators, `start=1`. -/
def runLoop (env : Env) (rng : Nat → Nat) (target_year : Int)
    (meetups : List Record) : LoopState :=
  runLoopFrom env rng target_year initState 1 meetups

/-- Model of Python `str.lower`: lower-case each character. -/
def pyLower (s : String) : String :=
  ⟨s.data.map Char.toLower⟩

/-- Sort key of the output buckets: `(x.get("meetupID") or "").lower()`. -/
def recordSortKey (m : Record) : String :=
  pyLower (pyOrEmpty m.meetupID)

/-- Sort key of the error list: same expression, over an error entry (whose
`meetupID` key is always present). -/
def errorSortKey (e : ErrorEntry) : String :=
  pyLower (pyOrEmpty (some e.meetupID))

/-- Boolean comparison used to sort the record buckets. -/
def recordLe (a b : Record) : Bool :=
  decide (recordSortKey a ≤ recordSortKey b)

/-- Boolean comparison used to sort the error list. -/
def errorLe (a b : ErrorEntry) : Bool :=
  decide (errorSortKey a ≤ errorSortKey b)

/-- What `main` writes to the three output files, plus the sleep trace. -/
structure MainOut where
  with_events : List Record
  without_events : List Record
  errors : List ErrorEntry
  sleeps : List Nat
deriving Repr

/-- The output of `main` on a successfully loaded record list: run the
loop, then sort each bucket by identifier, case-insensitively. -/
def mainOutputs (env : Env) (rng : Nat → Nat) (target_year : Int)
    (meetups : List Record) : MainOut :=
  let st := runLoop env rng target_year meetups
  { with_events := st.with_events.mergeSort recordLe
    without_events := st.without_events.mergeSort recordLe
    errors := st.errors.mergeSort errorLe
    sleeps := st.sleeps }

/-- Whole-run model of `main`: `json.load` either fails (the `with open`
block raises before the loop starts and before any output file is written,
modelled as `none`) or yields the record list, which is then processed and
written. -/
def mainRun (env : Env) (rng : Nat → Nat) (target_year : Int)
    (load : Except String (List Record)) : Option MainOut :=
  match load with
  | .error _ => none
  | .ok meetups => some (mainOutputs env rng target_year meetups)

/-- An item has a pubDate that is present and textually non-empty (the items
counted in `pubdates_seen`). -/
def itemPubNonEmpty (item : XTree) : Bool :=
  match findtext item "pubDate" with
  | none => false
  | some s => !(s == "")

/-- An item has a present, non-empty pubDate that parses (the items counted
in `pubdates_parsed`). -/
def itemParses (pd : String → Option DateTime) (item : XTree) : Bool :=
  match findtext item "pubDate" with
  | none => false
  | some s =>
    if s == "" then false
    else (pd s).isSome

/-- An item has a present, non-empty pubDate that parses to the target year
(the items that set `has_match`). -/
def itemMatches (pd : String → Option DateTime) (ty : Int) (item : XTree) : Bool :=
  match findtext item "pubDate" with
  | none => false
  | some s =>
    if s == "" then false
    else
      match pd s with
      | none => false
      | some dt => decide (dt.year = ty)

/-- A record carries a truthy feed URL (the records that reach the fetch). -/
def hasUrl (m : Record) : Bool :=
  (pyTruthy m.meetupUrlRss).isSome

/-- Everything in the loop state except the sleep trace: the three buckets
and the four counters. -/
def LoopState.core (st : LoopState) :
    List Record × List Record × List ErrorEntry × Nat × Nat × Nat × Nat :=
  (st.with_events, st.without_events, st.errors,
   st.matched_count, st.no_match_count, st.error_count, st.processed)

/-- Concrete pseudo-random stream used by witnesses. -/
def rng0 : Nat → Nat := fun _ => 0

/-- Concrete date-parse oracle for witnesses: parses exactly one RFC-822
string, to the year 2026. -/
def pdW : String → Option DateTime :=
  fun s => if s = "Sat, 03 Jan 2026 10:00:00 GMT" then some { year := 2026 } else none

/-- Concrete item with a parseable pubDate. -/
def itemGood : XTree :=
  .elem "item" none [.elem "pubDate" (some "Sat, 03 Jan 2026 10:00:00 GMT") []]

/-- Concrete item with a present but malformed pubDate. -/
def itemBad : XTree :=
  .elem "item" none [.elem "pubDate" (some "not-a-date") []]

/-- Concrete channel holding the two items above. -/
def channelW : XTree := .elem "channel" none [itemGood, itemBad]

/-- Concrete document root for witnesses. -/
def rootW : XTree := .elem "rss" none [channelW]

/-- Concrete XML-parse oracle for witnesses: every byte string parses to
`rootW`. -/
def fsW : List Nat → Except String XTree := fun _ => .ok rootW

/-- Concrete record with no feed URL. -/
def recNoUrl : Record :=
  { meetupID := some "b-id", meetupName := none, meetupUrlRss := none, rest := [] }

/-- Concrete record with a feed URL. -/
def recWithUrl : Record :=
  { meetupID := some "a-id", meetupName := none
    meetupUrlRss := some "https://example.org/rss", rest := [] }

/-- Concrete environment whose fetches succeed and whose XML parses to
`rootW`. -/
def envW : Env := { fetch := fun _ => .ok [], fromstring := fsW, parsedate := pdW }

/-- Concrete environment whose fetches all fail with HTTP 404. -/
def envHttp : Env :=
  { fetch := fun _ => .httpError 404 "Not Found", fromstring := fsW, parsedate := pdW }

theorem pubDateStep_eq (pd : String → Option DateTime) (ty : Int)
    (acc : Bool × Nat × Nat) (i : XTree) :
    pubDateStep pd ty acc i =
      (acc.1 || itemMatches pd ty i,
       acc.2.1 + (if itemPubNonEmpty i then 1 else 0),
       acc.2.2 + (if itemParses pd i then 1 else 0)) := by
  unfold pubDateStep itemMatches itemPubNonEmpty itemParses
  cases h : findtext i "pubDate" with
  | none => simp
  | some pub =>
    by_cases hp : pub = ""
    · simp [hp]
    · simp only [hp, if_neg, beq_iff_eq, if_false]
      cases hd : pd pub with
      | none => simp [hp]
      | some dt => simp [hp]

theorem foldl_pubDateStep (pd : String → Option DateTime) (ty : Int) :
    ∀ (items : List XTree) (acc : Bool × Nat × Nat),
    items.foldl (pubDateStep pd ty) acc =
      (acc.1 || items.any (itemMatches pd ty),
       acc.2.1 + items.countP (itemPubNonEmpty ·),
       acc.2.2 + items.countP (itemParses pd ·))
  | [], acc => by simp
  | i :: items, acc => by
    rw [List.foldl_cons, pubDateStep_eq, foldl_pubDateStep pd ty items]
    refine Prod.ext ?_ (Prod.ext ?_ ?_) <;>
      simp [List.countP_cons, Bool.or_assoc] <;> split <;> omega

theorem itemMatches_iff (pd : String → Option DateTime) (ty : Int) (i : XTree) :
    itemMatches pd ty i = true ↔
      ∃ s, findtext i "pubDate" = some s ∧ s ≠ "" ∧
        ∃ dt, pd s = some dt ∧ dt.year = ty := by
  unfold itemMatches
  cases h : findtext i "pubDate" with
  | none => simp
  | some pub =>
    by_cases hp : pub = ""
    · simp [hp]
    · simp only [beq_iff_eq, hp, if_false]
      cases hd : pd pub with
      | none => simp [hp, hd]
      | some dt => simp [hp, hd]

theorem itemParses_iff (pd : String → Option DateTime) (i : XTree) :
    itemParses pd i = true ↔
      ∃ s, findtext i "pubDate" = some s ∧ s ≠ "" ∧ (pd s).isSome = true := by
  unfold itemParses
  cases h : findtext i "pubDate" with
  | none => simp
  | some pub =>
    by_cases hp : pub = ""
    · simp [hp]
    · simp only [beq_iff_eq, hp, if_false]
      cases hd : pd pub with
      | none => simp [hp, hd]
      | some dt => simp [hp, hd]

theorem itemPubNonEmpty_iff (i : XTree) :
    itemPubNonEmpty i = true ↔ ∃ s, findtext i "pubDate" = some s ∧ s ≠ "" := by
  unfold itemPubNonEmpty
  cases h : findtext i "pubDate" with
  | none => simp
  | some pub => simp

theorem itemParses_of_itemMatches (pd : String → Option DateTime) (ty : Int) (i : XTree)
    (h : itemMatches pd ty i = true) : itemParses pd i = true := by
  rcases (itemMatches_iff pd ty i).mp h with ⟨s, hs, hne, dt, hdt, _⟩
  exact (itemParses_iff pd i).mpr ⟨s, hs, hne, by simp [hdt]⟩

theorem itemPubNonEmpty_of_itemParses (pd : String → Option DateTime) (i : XTree)
    (h : itemParses pd i = true) : itemPubNonEmpty i = true := by
  rcases (itemParses_iff pd i).mp h with ⟨s, hs, hne, _⟩
  exact (itemPubNonEmpty_iff i).mpr ⟨s, hs, hne⟩

theorem countP_lt_of_witness {α : Type} {p q : α → Bool} :
    ∀ (l : List α), (∀ x ∈ l, p x = true → q x = true) →
      ∀ b ∈ l, q b = true → p b = false → l.countP p < l.countP q := by
  intro l
  induction l with
  | nil => intro _ b hb; exact absurd hb (List.not_mem_nil b)
  | cons a l ih =>
    intro himp b hb hqb hpb
    have himp' : ∀ x ∈ l, p x = true → q x = true :=
      fun x hx => himp x (List.mem_cons_of_mem a hx)
    rw [List.countP_cons, List.countP_cons]
    rcases List.mem_cons.mp hb with heq | hbl
    · subst heq
      rw [hpb, hqb]
      have hmono : l.countP p ≤ l.countP q := List.countP_mono_left himp'
      simp only [Bool.false_eq_true, if_false, if_true]
      omega
    · have hrec := ih himp' b hbl hqb hpb
      have hpq : (if p a then 1 else 0) ≤ (if q a then 1 else 0) := by
        by_cases hpa : p a = true
        · simp [hpa, himp a (List.mem_cons_self a l) hpa]
        · simp only [Bool.not_eq_true] at hpa
          simp only [hpa, if_false]
          exact Nat.zero_le _
      omega

theorem rss_eq_of_no_channel (fs : List Nat → Except String XTree)
    (pd : String → Option DateTime) (bytes : List Nat) (ty : Int) (root : XTree)
    (hroot : fs bytes = .ok root) (hch : find root "channel" = none) :
    rss_has_pubdate_year fs pd bytes ty = .ok (false, 0, 0) := by
  simp only [rss_has_pubdate_year, hroot, hch]

theorem rss_eq_of_channel (fs : List Nat → Except String XTree)
    (pd : String → Option DateTime) (bytes : List Nat) (ty : Int) (root ch : XTree)
    (hroot : fs bytes = .ok root) (hch : find root "channel" = some ch) :
    rss_has_pubdate_year fs pd bytes ty =
      .ok ((findall ch "item").any (itemMatches pd ty),
           (findall ch "item").countP (itemPubNonEmpty ·),
           (findall ch "item").countP (itemParses pd ·)) := by
  simp only [rss_has_pubdate_year, hroot, hch, foldl_pubDateStep]
  simp

/-- C2: for a well-formed document (the XML oracle accepts the bytes) whose
empty strings do not date-parse, the classifier reports a match exactly when
the channel holds an item whose pubDate parses to the target year, and a
document without a channel yields `(false, 0, 0)` without erroring. -/
theorem C2_match_iff_target_year (fs : List Nat → Except String XTree)
    (pd : String → Option DateTime) (bytes : List Nat) (ty : Int) (root : XTree)
    (hroot : fs bytes = .ok root) (hpd : pd "" = none) :
    (find root "channel" = none →
      rss_has_pubdate_year fs pd bytes ty = .ok (false, 0, 0)) ∧
    (∀ ch, find root "channel" = some ch →
      ((∃ r, rss_has_pubdate_year fs pd bytes ty = .ok r ∧ r.1 = true) ↔
        ∃ item ∈ findall ch "item", ∃ s dt,
          findtext item "pubDate" = some s ∧ pd s = some dt ∧ dt.year = ty)) := by
  constructor
  · intro hch
    exact rss_eq_of_no_channel fs pd bytes ty root hroot hch
  · intro ch hch
    rw [rss_eq_of_channel fs pd bytes ty root ch hroot hch]
    constructor
    · rintro ⟨r, hr, hr1⟩
      rw [Except.ok.injEq] at hr
      subst hr
      rcases List.any_eq_true.mp hr1 with ⟨item, hmem, hmatch⟩
      rcases (itemMatches_iff pd ty item).mp hmatch with ⟨s, hs, _, dt, hdt, hy⟩
      exact ⟨item, hmem, s, dt, hs, hdt, hy⟩
    · rintro ⟨item, hmem, s, dt, hs, hdt, hy⟩
      refine ⟨_, rfl, ?_⟩
      have hne : s ≠ "" := by
        rintro rfl
        rw [hpd] at hdt
        exact Option.noConfusion hdt
      exact List.any_eq_true.mpr
        ⟨item, hmem, (itemMatches_iff pd ty item).mpr ⟨s, hs, hne, dt, hdt, hy⟩⟩

/-- C3: a well-formed feed holding an item whose pubDate is present but
malformed is classified without an exception, counts that date as seen but
not parsed (so parsed < seen), the malformed date never yields a match, and
when no item matches the record is routed to `without_events` with no error
recorded. -/
theorem C3_malformed_pubdate_skipped (fs : List Nat → Except String XTree)
    (pd : String → Option DateTime) (bytes : List Nat) (ty : Int) (root ch : XTree)
    (hroot : fs bytes = .ok root) (hch : find root "channel" = some ch)
    (hbad : ∃ item ∈ findall ch "item", ∃ s,
      findtext item "pubDate" = some s ∧ s ≠ "" ∧ pd s = none) :
    ∃ hm seen parsed,
      rss_has_pubdate_year fs pd bytes ty = .ok (hm, seen, parsed) ∧
      parsed < seen ∧
      ((∀ item ∈ findall ch "item", itemMatches pd ty item = false) → hm = false) ∧
      (∀ (fetch : String → FetchResult) (rng : Nat → Nat) (st : LoopState)
          (idx : Nat) (m : Record) (url : String),
        pyTruthy m.meetupUrlRss = some url → fetch url = .ok bytes → hm = false →
        (processRecord ⟨fetch, fs, pd⟩ rng ty st idx m).without_events
            = st.without_events ++ [m] ∧
        (processRecord ⟨fetch, fs, pd⟩ rng ty st idx m).errors = st.errors) := by
  rcases hbad with ⟨bad, hmem, s, hs, hne, hnoparse⟩
  refine ⟨(findall ch "item").any (itemMatches pd ty),
          (findall ch "item").countP (itemPubNonEmpty ·),
          (findall ch "item").countP (itemParses pd ·),
          rss_eq_of_channel fs pd bytes ty root ch hroot hch, ?_, ?_, ?_⟩
  · refine countP_lt_of_witness (findall ch "item")
      (fun x _ hx => itemPubNonEmpty_of_itemParses pd x hx) bad hmem
      ((itemPubNonEmpty_iff bad).mpr ⟨s, hs, hne⟩) ?_
    rw [Bool.eq_false_iff]
    intro hp
    rcases (itemParses_iff pd bad).mp hp with ⟨s', hs', _, hsome⟩
    rw [hs] at hs'
    cases hs'
    rw [hnoparse] at hsome
    exact Bool.noConfusion hsome
  · intro hall
    exact List.any_eq_false.mpr fun x hx => by simp [hall x hx]
  · intro fetch rng st idx m url hurl hfetch hm
    simp only [processRecord, hurl, hfetch, hm,
      rss_eq_of_channel fs pd bytes ty root ch hroot hch]
    simp

/-- C10: an item whose pubDate element is present but textually empty is
treated exactly like an item with no pubDate element: the fold step leaves
the accumulator unchanged (nothing seen, nothing parsed, no match), and
removing such an item from the item list leaves the classification
untouched. -/
theorem C10_empty_pubdate_like_absent (pd : String → Option DateTime) (ty : Int) :
    (∀ (acc : Bool × Nat × Nat) (i : XTree), findtext i "pubDate" = some "" →
      pubDateStep pd ty acc i = acc ∧ itemPubNonEmpty i = false ∧
      itemParses pd i = false ∧ itemMatches pd ty i = false) ∧
    (∀ (acc : Bool × Nat × Nat) (j : XTree), findtext j "pubDate" = none →
      pubDateStep pd ty acc j = acc) ∧
    (∀ (acc : Bool × Nat × Nat) (l₁ l₂ : List XTree) (i : XTree),
      findtext i "pubDate" = some "" →
      (l₁ ++ i :: l₂).foldl (pubDateStep pd ty) acc
        = (l₁ ++ l₂).foldl (pubDateStep pd ty) acc) := by
  have hstep : ∀ (acc : Bool × Nat × Nat) (i : XTree),
      findtext i "pubDate" = some "" → pubDateStep pd ty acc i = acc := by
    intro acc i hi
    simp [pubDateStep, hi]
  refine ⟨?_, ?_, ?_⟩
  · intro acc i hi
    refine ⟨hstep acc i hi, ?_, ?_, ?_⟩
    · simp [itemPubNonEmpty, hi]
    · simp [itemParses, hi]
    · simp [itemMatches, hi]
  · intro acc j hj
    simp [pubDateStep, hj]
  · intro acc l₁ l₂ i hi
    rw [List.foldl_append, List.foldl_append, List.foldl_cons, hstep _ i hi]

theorem processRecord_missingUrl (env : Env) (rng : Nat → Nat) (ty : Int)
    (st : LoopState) (idx : Nat) (m : Record)
    (h : pyTruthy m.meetupUrlRss = none) :
    processRecord env rng ty st idx m =
      { st with
        processed := st.processed + 1
        error_count := st.error_count + 1
        errors := st.errors ++
          [{ meetupID := resolveId m idx, meetupUrlRss := none, error := "missing meetupUrlRss" }]
        without_events := st.without_events ++ [m] } := by
  simp only [processRecord, h]

theorem processRecord_match (env : Env) (rng : Nat → Nat) (ty : Int)
    (st : LoopState) (idx : Nat) (m : Record) (url : String) (bytes : List Nat)
    (r : Bool × Nat × Nat)
    (hu : pyTruthy m.meetupUrlRss = some url) (hf : env.fetch url = .ok bytes)
    (hr : rss_has_pubdate_year env.fromstring env.parsedate bytes ty = .ok r)
    (h1 : r.1 = true) :
    processRecord env rng ty st idx m =
      { st with
        processed := st.processed + 1
        matched_count := st.matched_count + 1
        with_events := st.with_events ++ [m]
        sleeps := st.sleeps ++ [sleepDuration rng st.sleeps.length] } := by
  simp only [processRecord, hu, hf, hr, h1, if_true]

theorem processRecord_noMatch (env : Env) (rng : Nat → Nat) (ty : Int)
    (st : LoopState) (idx : Nat) (m : Record) (url : String) (bytes : List Nat)
    (r : Bool × Nat × Nat)
    (hu : pyTruthy m.meetupUrlRss = some url) (hf : env.fetch url = .ok bytes)
    (hr : rss_has_pubdate_year env.fromstring env.parsedate bytes ty = .ok r)
    (h1 : r.1 = false) :
    processRecord env rng ty st idx m =
      { st with
        processed := st.processed + 1
        no_match_count := st.no_match_count + 1
        without_events := st.without_events ++ [m]
        sleeps := st.sleeps ++ [sleepDuration rng st.sleeps.length] } := by
  simp only [processRecord, hu, hf, hr, h1, Bool.false_eq_true, if_false]

theorem processRecord_parseError (env : Env) (rng : Nat → Nat) (ty : Int)
    (st : LoopState) (idx : Nat) (m : Record) (url : String) (bytes : List Nat)
    (e : String)
    (hu : pyTruthy m.meetupUrlRss = some url) (hf : env.fetch url = .ok bytes)
    (hr : rss_has_pubdate_year env.fromstring env.parsedate bytes ty = .error e) :
    processRecord env rng ty st idx m =
      { recordError st (resolveId m idx) url ("XML ParseError: " ++ e) m with
        sleeps := st.sleeps ++ [sleepDuration rng st.sleeps.length] } := by
  simp only [processRecord, hu, hf, hr]
  rfl

theorem processRecord_httpError (env : Env) (rng : Nat → Nat) (ty : Int)
    (st : LoopState) (idx : Nat) (m : Record) (url : String)
    (code : Nat) (reason : String)
    (hu : pyTruthy m.meetupUrlRss = some url)
    (hf : env.fetch url = .httpError code reason) :
    processRecord env rng ty st idx m =
      { recordError st (resolveId m idx) url
          ("HTTPError " ++ toString code ++ ": " ++ reason) m with
        sleeps := st.sleeps ++ [sleepDuration rng st.sleeps.length] } := by
  simp only [processRecord, hu, hf]
  rfl

theorem processRecord_urlError (env : Env) (rng : Nat → Nat) (ty : Int)
    (st : LoopState) (idx : Nat) (m : Record) (url : String) (reason : String)
    (hu : pyTruthy m.meetupUrlRss = some url)
    (hf : env.fetch url = .urlError reason) :
    processRecord env rng ty st idx m =
      { recordError st (resolveId m idx) url ("URLError: " ++ reason) m with
        sleeps := st.sleeps ++ [sleepDuration rng st.sleeps.length] } := by
  simp only [processRecord, hu, hf]
  rfl

theorem processRecord_exc (env : Env) (rng : Nat → Nat) (ty : Int)
    (st : LoopState) (idx : Nat) (m : Record) (url msg : String)
    (hu : pyTruthy m.meetupUrlRss = some url)
    (hf : env.fetch url = .exc msg) :
    processRecord env rng ty st idx m =
      { recordError st (resolveId m idx) url msg m with
        sleeps := st.sleeps ++ [sleepDuration rng st.sleeps.length] } := by
  simp only [processRecord, hu, hf]
  rfl

theorem processRecord_cases (env : Env) (rng : Nat → Nat) (ty : Int)
    (st : LoopState) (idx : Nat) (m : Record) :
    ((processRecord env rng ty st idx m).with_events = st.with_events ++ [m] ∧
     (processRecord env rng ty st idx m).without_events = st.without_events ∧
     (processRecord env rng ty st idx m).errors = st.errors) ∨
    ((processRecord env rng ty st idx m).with_events = st.with_events ∧
     (processRecord env rng ty st idx m).without_events = st.without_events ++ [m] ∧
     ((processRecord env rng ty st idx m).errors = st.errors ∨
      ∃ e, (processRecord env rng ty st idx m).errors = st.errors ++ [e])) := by
  cases hu : pyTruthy m.meetupUrlRss with
  | none =>
    rw [processRecord_missingUrl env rng ty st idx m hu]
    right
    exact ⟨rfl, rfl, Or.inr ⟨_, rfl⟩⟩
  | some url =>
    cases hf : env.fetch url with
    | ok bytes =>
      cases hr : rss_has_pubdate_year env.fromstring env.parsedate bytes ty with
      | ok r =>
        cases h1 : r.1 with
        | true =>
          rw [processRecord_match env rng ty st idx m url bytes r hu hf hr h1]
          left
          exact ⟨rfl, rfl, rfl⟩
        | false =>
          rw [processRecord_noMatch env rng ty st idx m url bytes r hu hf hr h1]
          right
          exact ⟨rfl, rfl, Or.inl rfl⟩
      | error e =>
        rw [processRecord_parseError env rng ty st idx m url bytes e hu hf hr]
        right
        exact ⟨rfl, rfl, Or.inr ⟨_, rfl⟩⟩
    | httpError code reason =>
      rw [processRecord_httpError env rng ty st idx m url code reason hu hf]
      right
      exact ⟨rfl, rfl, Or.inr ⟨_, rfl⟩⟩
    | urlError reason =>
      rw [processRecord_urlError env rng ty st idx m url reason hu hf]
      right
      exact ⟨rfl, rfl, Or.inr ⟨_, rfl⟩⟩
    | exc msg =>
      rw [processRecord_exc env rng ty st idx m url msg hu hf]
      right
      exact ⟨rfl, rfl, Or.inr ⟨_, rfl⟩⟩

theorem runLoopFrom_append (env : Env) (rng : Nat → Nat) (ty : Int) :
    ∀ (l₁ l₂ : List Record) (st : LoopState) (idx : Nat),
    runLoopFrom env rng ty st idx (l₁ ++ l₂)
      = runLoopFrom env rng ty (runLoopFrom env rng ty st idx l₁) (idx + l₁.length) l₂
  | [], l₂, st, idx => by simp [runLoopFrom]
  | m :: l₁, l₂, st, idx => by
    rw [List.cons_append]
    show runLoopFrom env rng ty (processRecord env rng ty st idx m) (idx + 1) (l₁ ++ l₂) = _
    rw [runLoopFrom_append env rng ty l₁ l₂]
    simp [runLoopFrom, Nat.add_assoc, Nat.add_comm 1 l₁.length]

theorem runLoopFrom_perm (env : Env) (rng : Nat → Nat) (ty : Int) :
    ∀ (l : List Record) (st : LoopState) (idx : Nat),
    ((runLoopFrom env rng ty st idx l).with_events
        ++ (runLoopFrom env rng ty st idx l).without_events).Perm
      ((st.with_events ++ st.without_events) ++ l)
  | [], st, idx => by simp [runLoopFrom]
  | m :: l, st, idx => by
    show ((runLoopFrom env rng ty (processRecord env rng ty st idx m) (idx + 1) l).with_events
        ++ _).Perm _
    have hstep : ((processRecord env rng ty st idx m).with_events
        ++ (processRecord env rng ty st idx m).without_events).Perm
        ((st.with_events ++ st.without_events) ++ [m]) := by
      rcases processRecord_cases env rng ty st idx m with
        ⟨h1, h2, _⟩ | ⟨h1, h2, _⟩
      · rw [h1, h2, List.append_assoc, List.append_assoc]
        exact List.Perm.append_left st.with_events List.perm_append_comm
      · rw [h1, h2, List.append_assoc]
    have hrec := runLoopFrom_perm env rng ty l (processRecord env rng ty st idx m) (idx + 1)
    have hall := hrec.trans (List.Perm.append_right l hstep)
    rw [List.append_assoc, List.singleton_append] at hall
    exact hall

theorem runLoopFrom_errors_le (env : Env) (rng : Nat → Nat) (ty : Int) :
    ∀ (l : List Record) (st : LoopState) (idx : Nat),
    st.errors.length ≤ st.without_events.length →
    (runLoopFrom env rng ty st idx l).errors.length
      ≤ (runLoopFrom env rng ty st idx l).without_events.length
  | [], st, idx, h => h
  | m :: l, st, idx, h => by
    show (runLoopFrom env rng ty (processRecord env rng ty st idx m) (idx + 1) l).errors.length ≤ _
    refine runLoopFrom_errors_le env rng ty l (processRecord env rng ty st idx m) (idx + 1) ?_
    rcases processRecord_cases env rng ty st idx m with
      ⟨_, h2, h3⟩ | ⟨_, h2, h3 | ⟨e, h3⟩⟩
    · rw [h2, h3]; exact h
    · rw [h2, h3]
      simp only [List.length_append, List.length_singleton]
      omega
    · rw [h2, h3]
      simp only [List.length_append, List.length_singleton]
      omega

theorem processRecord_sleeps (env : Env) (rng : Nat → Nat) (ty : Int)
    (st : LoopState) (idx : Nat) (m : Record) :
    (processRecord env rng ty st idx m).sleeps.length
      = st.sleeps.length + (if hasUrl m then 1 else 0) := by
  cases hu : pyTruthy m.meetupUrlRss with
  | none =>
    rw [processRecord_missingUrl env rng ty st idx m hu]
    simp [hasUrl, hu]
  | some url =>
    have hh : hasUrl m = true := by simp [hasUrl, hu]
    cases hf : env.fetch url with
    | ok bytes =>
      cases hr : rss_has_pubdate_year env.fromstring env.parsedate bytes ty with
      | ok r =>
        cases h1 : r.1 with
        | true =>
          rw [processRecord_match env rng ty st idx m url bytes r hu hf hr h1]
          simp [hh]
        | false =>
          rw [processRecord_noMatch env rng ty st idx m url bytes r hu hf hr h1]
          simp [hh]
      | error e =>
        rw [processRecord_parseError env rng ty st idx m url bytes e hu hf hr]
        simp [hh, recordError]
    | httpError code reason =>
      rw [processRecord_httpError env rng ty st idx m url code reason hu hf]
      simp [hh, recordError]
    | urlError reason =>
      rw [processRecord_urlError env rng ty st idx m url reason hu hf]
      simp [hh, recordError]
    | exc msg =>
      rw [processRecord_exc env rng ty st idx m url msg hu hf]
      simp [hh, recordError]

theorem runLoopFrom_sleeps (env : Env) (rng : Nat → Nat) (ty : Int) :
    ∀ (l : List Record) (st : LoopState) (idx : Nat),
    (runLoopFrom env rng ty st idx l).sleeps.length
      = st.sleeps.length + l.countP hasUrl
  | [], st, idx => by simp [runLoopFrom]
  | m :: l, st, idx => by
    show (runLoopFrom env rng ty (processRecord env rng ty st idx m) (idx + 1) l).sleeps.length = _
    rw [runLoopFrom_sleeps env rng ty l (processRecord env rng ty st idx m) (idx + 1),
        processRecord_sleeps, List.countP_cons]
    by_cases hm : hasUrl m = true
    · simp [hm]; omega
    · simp only [Bool.not_eq_true] at hm
      simp [hm]

theorem processRecord_core (env : Env) (ty : Int) (idx : Nat) (m : Record)
    (rng rng' : Nat → Nat) (st st' : LoopState) (h : st.core = st'.core) :
    (processRecord env rng ty st idx m).core = (processRecord env rng' ty st' idx m).core := by
  simp only [LoopState.core, Prod.mk.injEq] at h
  obtain ⟨h1, h2, h3, h4, h5, h6, h7⟩ := h
  cases hu : pyTruthy m.meetupUrlRss with
  | none =>
    rw [processRecord_missingUrl env rng ty st idx m hu,
        processRecord_missingUrl env rng' ty st' idx m hu]
    simp [LoopState.core, h1, h2, h3, h4, h5, h6, h7]
  | some url =>
    cases hf : env.fetch url with
    | ok bytes =>
      cases hr : rss_has_pubdate_year env.fromstring env.parsedate bytes ty with
      | ok r =>
        cases hb : r.1 with
        | true =>
          rw [processRecord_match env rng ty st idx m url bytes r hu hf hr hb,
              processRecord_match env rng' ty st' idx m url bytes r hu hf hr hb]
          simp [LoopState.core, h1, h2, h3, h4, h5, h6, h7]
        | false =>
          rw [processRecord_noMatch env rng ty st idx m url bytes r hu hf hr hb,
              processRecord_noMatch env rng' ty st' idx m url bytes r hu hf hr hb]
          simp [LoopState.core, h1, h2, h3, h4, h5, h6, h7]
      | error e =>
        rw [processRecord_parseError env rng ty st idx m url bytes e hu hf hr,
            processRecord_parseError env rng' ty st' idx m url bytes e hu hf hr]
        simp [LoopState.core, recordError, h1, h2, h3, h4, h5, h6, h7]
    | httpError code reason =>
      rw [processRecord_httpError env rng ty st idx m url code reason hu hf,
          processRecord_httpError env rng' ty st' idx m url code reason hu hf]
      simp [LoopState.core, recordError, h1, h2, h3, h4, h5, h6, h7]
    | urlError reason =>
      rw [processRecord_urlError env rng ty st idx m url reason hu hf,
          processRecord_urlError env rng' ty st' idx m url reason hu hf]
      simp [LoopState.core, recordError, h1, h2, h3, h4, h5, h6, h7]
    | exc msg =>
      rw [processRecord_exc env rng ty st idx m url msg hu hf,
          processRecord_exc env rng' ty st' idx m url msg hu hf]
      simp [LoopState.core, recordError, h1, h2, h3, h4, h5, h6, h7]

theorem runLoopFrom_core (env : Env) (ty : Int) :
    ∀ (l : List Record) (idx : Nat) (rng rng' : Nat → Nat) (st st' : LoopState),
    st.core = st'.core →
    (runLoopFrom env rng ty st idx l).core = (runLoopFrom env rng' ty st' idx l).core
  | [], _, _, _, _, _, h => h
  | m :: l, idx, rng, rng', st, st', h =>
    runLoopFrom_core env ty l (idx + 1) rng rng' _ _
      (processRecord_core env ty idx m rng rng' st st' h)

theorem recordLe_trans : ∀ (a b c : Record), recordLe a b → recordLe b c → recordLe a c := by
  intro a b c hab hbc
  simp only [recordLe, decide_eq_true_eq] at *
  exact le_trans hab hbc

theorem recordLe_total : ∀ (a b : Record), recordLe a b || recordLe b a := by
  intro a b
  simp only [recordLe]
  rcases le_total (recordSortKey a) (recordSortKey b) with h | h <;> simp [h]

theorem errorLe_trans : ∀ (a b c : ErrorEntry), errorLe a b → errorLe b c → errorLe a c := by
  intro a b c hab hbc
  simp only [errorLe, decide_eq_true_eq] at *
  exact le_trans hab hbc

theorem errorLe_total : ∀ (a b : ErrorEntry), errorLe a b || errorLe b a := by
  intro a b
  simp only [errorLe]
  rcases le_total (errorSortKey a) (errorSortKey b) with h | h <;> simp [h]

theorem empty_string_le (s : String) : "" ≤ s :=
  String.le_iff_toList_le.mpr (by rw [String.toList_empty]; exact List.nil_le)

/-- C1: every input record is appended to exactly one of the two buckets
(an errored record going to `without_events`, possibly together with a new
error entry), so the two buckets together are a permutation of the input,
their sizes sum to the input length, and the error list never outgrows the
unmatched bucket. -/
theorem C1_every_record_in_exactly_one_bucket (env : Env) (rng : Nat → Nat)
    (ty : Int) (meetups : List Record) :
    ((runLoop env rng ty meetups).with_events
        ++ (runLoop env rng ty meetups).without_events).Perm meetups ∧
    (runLoop env rng ty meetups).with_events.length
        + (runLoop env rng ty meetups).without_events.length = meetups.length ∧
    (runLoop env rng ty meetups).errors.length
        ≤ (runLoop env rng ty meetups).without_events.length ∧
    (∀ (st : LoopState) (idx : Nat) (m : Record),
      ((processRecord env rng ty st idx m).with_events = st.with_events ++ [m] ∧
       (processRecord env rng ty st idx m).without_events = st.without_events ∧
       (processRecord env rng ty st idx m).errors = st.errors) ∨
      ((processRecord env rng ty st idx m).with_events = st.with_events ∧
       (processRecord env rng ty st idx m).without_events = st.without_events ++ [m] ∧
       ((processRecord env rng ty st idx m).errors = st.errors ∨
        ∃ e, (processRecord env rng ty st idx m).errors = st.errors ++ [e]))) := by
  have hperm := runLoopFrom_perm env rng ty meetups initState 1
  simp only [initState, List.nil_append] at hperm
  refine ⟨hperm, ?_, ?_, fun st idx m => processRecord_cases env rng ty st idx m⟩
  · have := hperm.length_eq
    simpa [List.length_append] using this
  · exact runLoopFrom_errors_le env rng ty meetups initState 1 (Nat.le_refl 0)

/-- C4: a record whose feed-URL field is missing or falsy is routed to
`without_events`, an error entry with the resolved identifier and message
"missing meetupUrlRss" is appended, the error count is incremented, and the
step is independent of the fetch environment (no network access). -/
theorem C4_missing_url_routed_and_logged (env : Env) (rng : Nat → Nat) (ty : Int)
    (st : LoopState) (idx : Nat) (m : Record)
    (h : pyTruthy m.meetupUrlRss = none) :
    processRecord env rng ty st idx m =
      { st with
        processed := st.processed + 1
        error_count := st.error_count + 1
        errors := st.errors ++
          [{ meetupID := resolveId m idx, meetupUrlRss := none, error := "missing meetupUrlRss" }]
        without_events := st.without_events ++ [m] } ∧
    (∀ env' : Env, processRecord env rng ty st idx m = processRecord env' rng ty st idx m) := by
  refine ⟨processRecord_missingUrl env rng ty st idx m h, fun env' => ?_⟩
  rw [processRecord_missingUrl env rng ty st idx m h,
      processRecord_missingUrl env' rng ty st idx m h]

/-- C4 witness: the step at a concrete URL-less record. -/
theorem C4_missing_url_witness :
    processRecord envHttp rng0 2026 initState 1 recNoUrl =
      { initState with
        processed := 1
        error_count := 1
        errors := [{ meetupID := "b-id", meetupUrlRss := none, error := "missing meetupUrlRss" }]
        without_events := [recNoUrl] } := by
  rw [(C4_missing_url_routed_and_logged envHttp rng0 2026 initState 1 recNoUrl rfl).1]
  rfl

/-- C5: every fetch or parse failure is absorbed at the per-record boundary
(the four failing branches append an error entry carrying identifier, URL
and message, route the record to `without_events`, and leave the loop free
to continue, which processes any remaining suffix), and a failing input
load produces no output at all. -/
theorem C5_per_record_error_boundary (env : Env) (rng : Nat → Nat) (ty : Int) :
    (∀ (st : LoopState) (idx : Nat) (m : Record) (url : String) (code : Nat) (reason : String),
      pyTruthy m.meetupUrlRss = some url → env.fetch url = .httpError code reason →
      processRecord env rng ty st idx m =
        { recordError st (resolveId m idx) url
            ("HTTPError " ++ toString code ++ ": " ++ reason) m with
          sleeps := st.sleeps ++ [sleepDuration rng st.sleeps.length] }) ∧
    (∀ (st : LoopState) (idx : Nat) (m : Record) (url reason : String),
      pyTruthy m.meetupUrlRss = some url → env.fetch url = .urlError reason →
      processRecord env rng ty st idx m =
        { recordError st (resolveId m idx) url ("URLError: " ++ reason) m with
          sleeps := st.sleeps ++ [sleepDuration rng st.sleeps.length] }) ∧
    (∀ (st : LoopState) (idx : Nat) (m : Record) (url msg : String),
      pyTruthy m.meetupUrlRss = some url → env.fetch url = .exc msg →
      processRecord env rng ty st idx m =
        { recordError st (resolveId m idx) url msg m with
          sleeps := st.sleeps ++ [sleepDuration rng st.sleeps.length] }) ∧
    (∀ (st : LoopState) (idx : Nat) (m : Record) (url : String) (bytes : List Nat) (e : String),
      pyTruthy m.meetupUrlRss = some url → env.fetch url = .ok bytes →
      rss_has_pubdate_year env.fromstring env.parsedate bytes ty = .error e →
      processRecord env rng ty st idx m =
        { recordError st (resolveId m idx) url ("XML ParseError: " ++ e) m with
          sleeps := st.sleeps ++ [sleepDuration rng st.sleeps.length] }) ∧
    (∀ (st : LoopState) (mid url msg : String) (m : Record),
      (recordError st mid url msg m).without_events = st.without_events ++ [m] ∧
      (recordError st mid url msg m).errors
          = st.errors ++ [{ meetupID := mid, meetupUrlRss := some url, error := msg }] ∧
      (recordError st mid url msg m).error_count = st.error_count + 1 ∧
      (recordError st mid url msg m).with_events = st.with_events) ∧
    (∀ (l₁ l₂ : List Record) (st : LoopState) (idx : Nat),
      runLoopFrom env rng ty st idx (l₁ ++ l₂)
        = runLoopFrom env rng ty (runLoopFrom env rng ty st idx l₁) (idx + l₁.length) l₂) ∧
    (∀ e : String, mainRun env rng ty (.error e) = none) := by
  refine ⟨?_, ?_, ?_, ?_, ?_, ?_, ?_⟩
  · intro st idx m url code reason hu hf
    exact processRecord_httpError env rng ty st idx m url code reason hu hf
  · intro st idx m url reason hu hf
    exact processRecord_urlError env rng ty st idx m url reason hu hf
  · intro st idx m url msg hu hf
    exact processRecord_exc env rng ty st idx m url msg hu hf
  · intro st idx m url bytes e hu hf hr
    exact processRecord_parseError env rng ty st idx m url bytes e hu hf hr
  · intro st mid url msg m
    exact ⟨rfl, rfl, rfl, rfl⟩
  · exact runLoopFrom_append env rng ty
  · intro e
    rfl

/-- C5 witness: a concrete HTTP failure is recorded and routed. -/
theorem C5_error_boundary_witness :
    processRecord envHttp rng0 2026 initState 1 recWithUrl =
      { recordError initState "a-id" "https://example.org/rss"
          "HTTPError 404: Not Found" recWithUrl with
        sleeps := [sleepDuration rng0 0] } := by
  rw [(C5_per_record_error_boundary envHttp rng0 2026).1 initState 1 recWithUrl
    "https://example.org/rss" 404 "Not Found" rfl rfl]
  rfl

/-- C6: the three output lists are sorted ascending by identifier compared
case-insensitively; a record lacking (or with a falsy) identifier is keyed
by the empty string, which is a least key and therefore sorts first. -/
theorem C6_outputs_sorted_case_insensitively (env : Env) (rng : Nat → Nat)
    (ty : Int) (meetups : List Record) :
    (mainOutputs env rng ty meetups).with_events.Pairwise
      (fun a b => recordSortKey a ≤ recordSortKey b) ∧
    (mainOutputs env rng ty meetups).without_events.Pairwise
      (fun a b => recordSortKey a ≤ recordSortKey b) ∧
    (mainOutputs env rng ty meetups).errors.Pairwise
      (fun a b => errorSortKey a ≤ errorSortKey b) ∧
    (∀ m : Record, pyTruthy m.meetupID = none → recordSortKey m = "") ∧
    (∀ m r : Record, pyTruthy m.meetupID = none → recordSortKey m ≤ recordSortKey r) := by
  have hkey : ∀ m : Record, pyTruthy m.meetupID = none → recordSortKey m = "" := by
    intro m hm
    simp only [recordSortKey, pyOrEmpty, hm]
    rfl
  refine ⟨?_, ?_, ?_, hkey, ?_⟩
  · exact (List.sorted_mergeSort recordLe_trans recordLe_total
      (runLoop env rng ty meetups).with_events).imp
      (fun hab => by simpa [recordLe] using hab)
  · exact (List.sorted_mergeSort recordLe_trans recordLe_total
      (runLoop env rng ty meetups).without_events).imp
      (fun hab => by simpa [recordLe] using hab)
  · exact (List.sorted_mergeSort errorLe_trans errorLe_total
      (runLoop env rng ty meetups).errors).imp
      (fun hab => by simpa [errorLe] using hab)
  · intro m r hm
    rw [hkey m hm]
    exact empty_string_le _

/-- C7 counterexample: on a one-record input whose record has no feed URL,
the loop performs no sleep at all, refuting "the source always sleeps once
per record". -/
theorem C7_missing_url_skips_sleep :
    (runLoop envHttp rng0 2026 [recNoUrl]).sleeps.length = 0 ∧
    [recNoUrl].length = 1 := by
  exact ⟨rfl, rfl⟩

/-- C7 amended: `sleep_random` runs exactly once per record that carries a
truthy feed URL; the missing-URL branch reaches `continue` before the sleep
and so never sleeps. -/
theorem C7_sleeps_once_per_record_with_url (env : Env) (rng : Nat → Nat)
    (ty : Int) (meetups : List Record) :
    (runLoop env rng ty meetups).sleeps.length = meetups.countP hasUrl := by
  have h := runLoopFrom_sleeps env rng ty meetups initState 1
  simpa [initState] using h

/-- C8: the three output lists depend only on the input records and the
fetch/parse oracles; the pseudo-random stream driving the sleeps has no
influence on them. -/
theorem C8_outputs_independent_of_sleep_randomness (env : Env) (ty : Int)
    (meetups : List Record) (rng₁ rng₂ : Nat → Nat) :
    (mainOutputs env rng₁ ty meetups).with_events
        = (mainOutputs env rng₂ ty meetups).with_events ∧
    (mainOutputs env rng₁ ty meetups).without_events
        = (mainOutputs env rng₂ ty meetups).without_events ∧
    (mainOutputs env rng₁ ty meetups).errors
        = (mainOutputs env rng₂ ty meetups).errors := by
  have h := runLoopFrom_core env ty meetups 1 rng₁ rng₂ initState initState rfl
  simp only [LoopState.core, Prod.mk.injEq] at h
  obtain ⟨h1, h2, h3, -⟩ := h
  refine ⟨?_, ?_, ?_⟩
  · show (runLoopFrom env rng₁ ty initState 1 meetups).with_events.mergeSort recordLe
        = (runLoopFrom env rng₂ ty initState 1 meetups).with_events.mergeSort recordLe
    rw [h1]
  · show (runLoopFrom env rng₁ ty initState 1 meetups).without_events.mergeSort recordLe
        = (runLoopFrom env rng₂ ty initState 1 meetups).without_events.mergeSort recordLe
    rw [h2]
  · show (runLoopFrom env rng₁ ty initState 1 meetups).errors.mergeSort errorLe
        = (runLoopFrom env rng₂ ty initState 1 meetups).errors.mergeSort errorLe
    rw [h3]

/-- C9: the records placed into the sorted output buckets are exactly the
input records, as unchanged values: the two buckets together are a
permutation of the input list, and each bucket's members are members of the
input. -/
theorem C9_records_are_pass_through_values (env : Env) (rng : Nat → Nat)
    (ty : Int) (meetups : List Record) :
    ((mainOutputs env rng ty meetups).with_events
        ++ (mainOutputs env rng ty meetups).without_events).Perm meetups ∧
    (∀ r, r ∈ (mainOutputs env rng ty meetups).with_events → r ∈ meetups) ∧
    (∀ r, r ∈ (mainOutputs env rng ty meetups).without_events → r ∈ meetups) := by
  have hperm := runLoopFrom_perm env rng ty meetups initState 1
  simp only [initState, List.nil_append] at hperm
  have hsorted : ((mainOutputs env rng ty meetups).with_events
      ++ (mainOutputs env rng ty meetups).without_events).Perm
      ((runLoop env rng ty meetups).with_events
        ++ (runLoop env rng ty meetups).without_events) :=
    List.Perm.append (List.mergeSort_perm _ _) (List.mergeSort_perm _ _)
  refine ⟨hsorted.trans hperm, ?_, ?_⟩
  · intro r hr
    have : r ∈ (runLoop env rng ty meetups).with_events := List.mem_mergeSort.mp hr
    exact hperm.mem_iff.mp (List.mem_append.mpr (Or.inl this))
  · intro r hr
    have : r ∈ (runLoop env rng ty meetups).without_events := List.mem_mergeSort.mp hr
    exact hperm.mem_iff.mp (List.mem_append.mpr (Or.inr this))

/-- C2 witness: a concrete feed whose single good item dates to 2026 is
reported matched. -/
theorem C2_match_witness :
    ∃ r, rss_has_pubdate_year fsW pdW [] 2026 = .ok r ∧ r.1 = true := by
  have h := (C2_match_iff_target_year fsW pdW [] 2026 rootW rfl (by simp [pdW])).2
    channelW rfl
  refine h.mpr ⟨itemGood, ?_, "Sat, 03 Jan 2026 10:00:00 GMT", ⟨2026⟩, rfl, ?_, rfl⟩
  · show itemGood ∈ findall channelW "item"
    have hfa : findall channelW "item" = [itemGood, itemBad] := rfl
    rw [hfa]
    exact List.mem_cons_self _ _
  · simp [pdW]

/-- C3 witness: the malformed item of the concrete feed is seen but not
parsed, without an exception. -/
theorem C3_malformed_witness :
    ∃ hm seen parsed,
      rss_has_pubdate_year fsW pdW [] 1999 = .ok (hm, seen, parsed) ∧ parsed < seen := by
  have hmem : itemBad ∈ findall channelW "item" := by
    have hfa : findall channelW "item" = [itemGood, itemBad] := rfl
    rw [hfa]
    exact List.mem_cons_of_mem _ (List.mem_cons_self _ _)
  have h := C3_malformed_pubdate_skipped fsW pdW [] 1999 rootW channelW rfl rfl
    ⟨itemBad, hmem, "not-a-date", rfl, by decide, by simp [pdW]⟩
  obtain ⟨hm, seen, parsed, h1, h2, -⟩ := h
  exact ⟨hm, seen, parsed, h1, h2⟩

end SplitMeetups
